import Mathlib

/-!
Verification of the bytecode compiler and stack VM of the `wacir` repository
(a Monkey-style language: compiler + virtual machine, written in Rust).

The Rust sources are shallowly embedded: `usize` becomes `Nat` (with partial
subtraction where Rust would panic on underflow), `i64` becomes unbounded
`Int` (Rust division's unconditional panics — zero divisor and the
overflowing `i64::MIN / -1` — are modelled explicitly; add/sub/mul
overflow is build-profile-dependent and exercised by no claim), `Vec<u8>`
instruction streams become `List Nat`, and fallible code returns a result
type.  A Rust `panic!` / `unwrap` / `todo!` / out-of-bounds index is
modelled as the `CompM.panicked` result, a `Result::Err(msg)` as
`CompM.error msg`.
-/

namespace Wacir

/-- Result of running a piece of Rust code: it may panic (process abort),
return `Err(msg)`, or succeed.  This flattens `Option (Except String α)`. -/
inductive CompM (α : Type) where
  | panicked
  | error (msg : String)
  | ok (a : α)


def CompM.bind {α β : Type} : CompM α → (α → CompM β) → CompM β
  | .panicked, _ => .panicked
  | .error msg, _ => .error msg
  | .ok a, f => f a

instance : Monad CompM where
  pure := CompM.ok
  bind := CompM.bind

/-- Lift an `Option` (Rust `unwrap` / panicking index) into `CompM`. -/
def liftOpt {α : Type} : Option α → CompM α
  | some a => .ok a
  | none => .panicked

/-- Rust `usize` subtraction: panics (here: `none`) on underflow. -/
def usizeSub (a b : Nat) : Option Nat :=
  if b ≤ a then some (a - b) else none

/-! ## `src/code.rs` : opcodes, encoder, decoder -/

/-- The `Opcode` enumeration, in the declaration order of the
`opcode_enum!` table in `src/code.rs` (so `OpConstant = 0`, …,
`OpSetLocal = 25` as `u8` discriminants). -/
inductive Opcode where
  | OpConstant
  | OpAdd
  | OpPop
  | OpSub
  | OpMul
  | OpDiv
  | OpTrue
  | OpFalse
  | OpEqual
  | OpNotEqual
  | OpGreaterThan
  | OpMinus
  | OpBang
  | OpJumpNotTruthy
  | OpJump
  | OpNull
  | OpGetGlobal
  | OpSetGlobal
  | OpArray
  | OpHash
  | OpIndex
  | OpCall
  | OpReturnValue
  | OpReturn
  | OpGetLocal
  | OpSetLocal
deriving DecidableEq

/-- `Opcode::byte(self) -> u8` : the `repr(u8)` discriminant. -/
def Opcode.byte : Opcode → Nat
  | .OpConstant => 0
  | .OpAdd => 1
  | .OpPop => 2
  | .OpSub => 3
  | .OpMul => 4
  | .OpDiv => 5
  | .OpTrue => 6
  | .OpFalse => 7
  | .OpEqual => 8
  | .OpNotEqual => 9
  | .OpGreaterThan => 10
  | .OpMinus => 11
  | .OpBang => 12
  | .OpJumpNotTruthy => 13
  | .OpJump => 14
  | .OpNull => 15
  | .OpGetGlobal => 16
  | .OpSetGlobal => 17
  | .OpArray => 18
  | .OpHash => 19
  | .OpIndex => 20
  | .OpCall => 21
  | .OpReturnValue => 22
  | .OpReturn => 23
  | .OpGetLocal => 24
  | .OpSetLocal => 25

/-- `Opcode::from(byte)` : the chain of `if byte == variant.byte()` tests;
an unknown byte hits `panic!("No such opcode")`, modelled as `none`. -/
def Opcode.fromByte : Nat → Option Opcode
  | 0 => some .OpConstant
  | 1 => some .OpAdd
  | 2 => some .OpPop
  | 3 => some .OpSub
  | 4 => some .OpMul
  | 5 => some .OpDiv
  | 6 => some .OpTrue
  | 7 => some .OpFalse
  | 8 => some .OpEqual
  | 9 => some .OpNotEqual
  | 10 => some .OpGreaterThan
  | 11 => some .OpMinus
  | 12 => some .OpBang
  | 13 => some .OpJumpNotTruthy
  | 14 => some .OpJump
  | 15 => some .OpNull
  | 16 => some .OpGetGlobal
  | 17 => some .OpSetGlobal
  | 18 => some .OpArray
  | 19 => some .OpHash
  | 20 => some .OpIndex
  | 21 => some .OpCall
  | 22 => some .OpReturnValue
  | 23 => some .OpReturn
  | 24 => some .OpGetLocal
  | 25 => some .OpSetLocal
  | _ => none

/-- `pub struct Definition { name, operand_width }`. -/
structure Definition where
  name : String
  operand_width : List Nat

/-- `lookup(op) -> Definition`, generated by the `opcode_enum!` table in
`src/code.rs`.  Note: `OpCall` has operand-width vector `[]` there. -/
def lookup : Opcode → Definition
  | .OpConstant => ⟨"OpConstant", [2]⟩
  | .OpAdd => ⟨"OpAdd", []⟩
  | .OpPop => ⟨"OpPop", []⟩
  | .OpSub => ⟨"OpSub", []⟩
  | .OpMul => ⟨"OpMul", []⟩
  | .OpDiv => ⟨"OpDiv", []⟩
  | .OpTrue => ⟨"OpTrue", []⟩
  | .OpFalse => ⟨"OpFalse", []⟩
  | .OpEqual => ⟨"OpEqual", []⟩
  | .OpNotEqual => ⟨"OpNotEqual", []⟩
  | .OpGreaterThan => ⟨"OpGreaterThan", []⟩
  | .OpMinus => ⟨"OpMinus", []⟩
  | .OpBang => ⟨"OpBang", []⟩
  | .OpJumpNotTruthy => ⟨"OpJumpNotTruthy", [2]⟩
  | .OpJump => ⟨"OpJump", [2]⟩
  | .OpNull => ⟨"OpNull", []⟩
  | .OpGetGlobal => ⟨"OpGetGlobal", [2]⟩
  | .OpSetGlobal => ⟨"OpSetGlobal", [2]⟩
  | .OpArray => ⟨"OpArray", [2]⟩
  | .OpHash => ⟨"OpHash", [2]⟩
  | .OpIndex => ⟨"OpIndex", []⟩
  | .OpCall => ⟨"OpCall", []⟩
  | .OpReturnValue => ⟨"OpReturnValue", []⟩
  | .OpReturn => ⟨"OpReturn", []⟩
  | .OpGetLocal => ⟨"OpGetLocal", [1]⟩
  | .OpSetLocal => ⟨"OpSetLocal", [1]⟩

/-- `make(op)` : pushes only the opcode byte (operand capacity is reserved
but nothing else is written). -/
def make (op : Opcode) : List Nat := [op.byte]

/-- The operand-encoding loop of `make_with_operands`: iterates over the
given operands, fetching `def.operand_width[i]` for each — a panicking
index (`none`) when there are more operands than declared widths.  Width 2
writes `(o as u16).to_be_bytes()` (big-endian, truncating mod 2^16), width
1 writes `o as u8`, any other width is `unreachable!()`. -/
def encodeOperands : List Nat → List Nat → Option (List Nat)
  | [], _ => some []
  | _ :: _, [] => none
  | o :: os, w :: ws =>
    match w with
    | 2 => (encodeOperands os ws).map
        (fun rest => (o % 65536) / 256 :: (o % 65536) % 256 :: rest)
    | 1 => (encodeOperands os ws).map (fun rest => o % 256 :: rest)
    | _ => none

/-- `make_with_operands(op, operands)` from `src/code.rs`. -/
def make_with_operands (op : Opcode) (operands : List Nat) : Option (List Nat) :=
  (encodeOperands operands (lookup op).operand_width).map (fun rest => make op ++ rest)

/-- The decoding loop of `read_operands`: walks the width vector keeping a
byte `offset`; width 2 reads two bytes big-endian, width 1 reads one byte
(slicing out of range panics, modelled as `none`); any other width pushes
nothing but still advances `offset`. -/
def readOperandsGo (ins : List Nat) : List Nat → Nat → Option (List Nat × Nat)
  | [], offset => some ([], offset)
  | w :: ws, offset =>
    match w with
    | 2 => do
      let b0 ← ins.get? offset
      let b1 ← ins.get? (offset + 1)
      let (rest, fin) ← readOperandsGo ins ws (offset + 2)
      pure ((b0 * 256 + b1) :: rest, fin)
    | 1 => do
      let b0 ← ins.get? offset
      let (rest, fin) ← readOperandsGo ins ws (offset + 1)
      pure (b0 :: rest, fin)
    | _ => readOperandsGo ins ws (offset + w)

/-- `read_operands(def, ins) -> (operands, bytes_consumed)`. -/
def read_operands (d : Definition) (ins : List Nat) : Option (List Nat × Nat) :=
  readOperandsGo ins d.operand_width 0

/-- `read_uint16(ins, start)` : big-endian 16-bit read, panicking when the
two bytes are not there. -/
def read_uint16 (ins : List Nat) (start : Nat) : Option Nat := do
  let b0 ← ins.get? start
  let b1 ← ins.get? (start + 1)
  pure (b0 * 256 + b1)

/-- `read_uint8(ins, start)`. -/
def read_uint8 (ins : List Nat) (start : Nat) : Option Nat :=
  ins.get? start

/-! ### Round-trip lemmas for the encoder/decoder (claim C5) -/

/-- Operands fit their declared widths: entry `o` against width `w` means
`o < 2 ^ (8 * w)`; `List.Forall₂` also forces the two lists to have the
same length. -/
def OperandsFit (operands widths : List Nat) : Prop :=
  List.Forall₂ (fun o w => o < 2 ^ (8 * w)) operands widths

theorem readGo_single2 (n : Nat) (h : n < 65536) :
    readOperandsGo [(n % 65536) / 256, (n % 65536) % 256] [2] 0 = some ([n], 2) := by
  have hm : n % 65536 = n := Nat.mod_eq_of_lt h
  simp [readOperandsGo, hm]
  rw [Nat.mul_comm]
  exact Nat.div_add_mod n 256

theorem readGo_single1 (n : Nat) (h : n < 256) :
    readOperandsGo [n % 256] [1] 0 = some ([n], 1) := by
  simp [readOperandsGo, Nat.mod_eq_of_lt h]

theorem c5_of_width0 (op : Opcode) (operands : List Nat)
    (hw : (lookup op).operand_width = [])
    (h : OperandsFit operands (lookup op).operand_width) :
    ∃ ins, make_with_operands op operands = some ins ∧
      read_operands (lookup op) (ins.drop 1) = some (operands, ((lookup op).operand_width).sum) := by
  rw [hw] at h
  cases h
  refine ⟨make op, ?_, ?_⟩
  · simp [make_with_operands, hw, encodeOperands]
  · simp [read_operands, hw, readOperandsGo, make]

theorem c5_of_width2 (op : Opcode) (operands : List Nat)
    (hw : (lookup op).operand_width = [2])
    (h : OperandsFit operands (lookup op).operand_width) :
    ∃ ins, make_with_operands op operands = some ins ∧
      read_operands (lookup op) (ins.drop 1) = some (operands, ((lookup op).operand_width).sum) := by
  rw [hw] at h
  rcases h with _ | ⟨hfit, htail⟩
  case cons n _ =>
    cases htail
    have hn : n < 65536 := by simpa using hfit
    refine ⟨[op.byte, (n % 65536) / 256, (n % 65536) % 256], ?_, ?_⟩
    · simp [make_with_operands, hw, encodeOperands, make]
    · simpa [read_operands, hw] using readGo_single2 n hn

theorem c5_of_width1 (op : Opcode) (operands : List Nat)
    (hw : (lookup op).operand_width = [1])
    (h : OperandsFit operands (lookup op).operand_width) :
    ∃ ins, make_with_operands op operands = some ins ∧
      read_operands (lookup op) (ins.drop 1) = some (operands, ((lookup op).operand_width).sum) := by
  rw [hw] at h
  rcases h with _ | ⟨hfit, htail⟩
  case cons n _ =>
    cases htail
    have hn : n < 256 := by simpa using hfit
    refine ⟨[op.byte, n % 256], ?_, ?_⟩
    · simp [make_with_operands, hw, encodeOperands, make]
    · simpa [read_operands, hw] using readGo_single1 n hn

/-- Claim C5: encoder round-trip.  For every opcode and every operand
vector matching `lookup(op)`'s width vector entry-wise (each operand below
`2^(8·width)`), `make_with_operands` succeeds and `read_operands` applied
to the bytes after the opcode byte returns exactly the operands together
with the sum of the declared widths. -/
theorem claim_C5_encoder_roundtrip (op : Opcode) (operands : List Nat)
    (h : OperandsFit operands (lookup op).operand_width) :
    ∃ ins, make_with_operands op operands = some ins ∧
      read_operands (lookup op) (ins.drop 1) = some (operands, ((lookup op).operand_width).sum) := by
  cases op <;>
    first
      | exact c5_of_width0 _ _ rfl h
      | exact c5_of_width1 _ _ rfl h
      | exact c5_of_width2 _ _ rfl h

/-- Witness for C5 at a concrete input: `OpConstant` with operand 65534
encodes to `[0, 255, 254]` and decodes back. -/
theorem claim_C5_witness :
    OperandsFit [65534] (lookup Opcode.OpConstant).operand_width ∧
      ∃ ins, make_with_operands Opcode.OpConstant [65534] = some ins ∧
        read_operands (lookup Opcode.OpConstant) (ins.drop 1) =
          some ([65534], ((lookup Opcode.OpConstant).operand_width).sum) :=
  ⟨List.Forall₂.cons (by decide) List.Forall₂.nil,
   claim_C5_encoder_roundtrip Opcode.OpConstant [65534]
     (List.Forall₂.cons (by decide) List.Forall₂.nil)⟩

/-! ## `src/compiler/symbol_table.rs` : the linked symbol table -/

/-- `enum SymbolScope { Global, Local }`. -/
inductive SymbolScope where
  | Global
  | Local
deriving DecidableEq

/-- `struct Symbol { name, scope, index }`. -/
structure Symbol where
  name : String
  scope : SymbolScope
  index : Nat
deriving DecidableEq

/-- `Symbol::is_global` (used by the compiler to pick the
global/local opcode). -/
def Symbol.is_global (s : Symbol) : Bool := s.scope = SymbolScope.Global

/-- `HashMap::insert` on the `store` map, as an association list: replace
the binding of `name` if present, otherwise append it. -/
def storeInsert : List (String × Symbol) → String → Symbol → List (String × Symbol)
  | [], name, sym => [(name, sym)]
  | (k, v) :: rest, name, sym =>
    if k = name then (name, sym) :: rest else (k, v) :: storeInsert rest name sym

/-- `HashMap::get` on the `store` map. -/
def storeGet : List (String × Symbol) → String → Option Symbol
  | [], _ => none
  | (k, v) :: rest, name => if k = name then some v else storeGet rest name

/-- `struct SymbolTable { outer: Option<Rc<RefCell<SymbolTable>>>, store,
num_definitions }`.  The `Option` on `outer` is unfolded into the two
constructors (`global` for `outer = None`, `enclosed` for `Some`). -/
inductive SymbolTable where
  | global (store : List (String × Symbol)) (num_definitions : Nat)
  | enclosed (outer : SymbolTable) (store : List (String × Symbol)) (num_definitions : Nat)

def SymbolTable.store : SymbolTable → List (String × Symbol)
  | .global st _ => st
  | .enclosed _ st _ => st

def SymbolTable.num_definitions : SymbolTable → Nat
  | .global _ n => n
  | .enclosed _ _ n => n

/-- `new_symbol_table()`. -/
def new_symbol_table : SymbolTable := .global [] 0

/-- `new_enclosed_symbol_table(outer)`. -/
def new_enclosed_symbol_table (outer : SymbolTable) : SymbolTable :=
  .enclosed outer [] 0

/-- `SymbolTable::define(name)` : scope is `Local` iff `outer.is_some()`,
index is the table's current `num_definitions` (then incremented); the
store binding is overwritten.  Returns the updated table and the inserted
symbol. -/
def SymbolTable.define : SymbolTable → String → SymbolTable × Symbol
  | .global st n, name =>
    let sym : Symbol := ⟨name, .Global, n⟩
    (.global (storeInsert st name sym) (n + 1), sym)
  | .enclosed outer st n, name =>
    let sym : Symbol := ⟨name, .Local, n⟩
    (.enclosed outer (storeInsert st name sym) (n + 1), sym)

/-- `SymbolTable::resolve(name)` : the own store first, then recursively
the outer table. -/
def SymbolTable.resolve : SymbolTable → String → Option Symbol
  | .global st _, name => storeGet st name
  | .enclosed outer st _, name =>
    match storeGet st name with
    | some s => some s
    | none => outer.resolve name

/-- Claim C8: symbol resolution prefers the innermost scope and the first
match wins.  For a table `enclosed outer store n`: if `store` binds `name`
(and the enclosing chain binds it too), `resolve` returns the inner
binding; if `store` does not bind `name` but the enclosing chain resolves
it, `resolve` returns the chain's symbol (the walk recurses through the
whole chain of scopes). -/
theorem claim_C8_resolve_innermost_first (outer : SymbolTable)
    (store : List (String × Symbol)) (n : Nat) (name : String) (s s' : Symbol) :
    (storeGet store name = some s → outer.resolve name = some s' →
      (SymbolTable.enclosed outer store n).resolve name = some s)
    ∧ (storeGet store name = none → outer.resolve name = some s' →
      (SymbolTable.enclosed outer store n).resolve name = some s') := by
  constructor
  · intro hin _
    simp [SymbolTable.resolve, hin]
  · intro hmiss hout
    simp [SymbolTable.resolve, hmiss, hout]

/-- Witness for C8: a global scope defining `a` and `b`, an enclosed scope
shadowing `a`; from the inner scope, `a` resolves to the local symbol and
`b` to the global one.  The tables are built with `define`. -/
theorem claim_C8_witness :
    (((new_enclosed_symbol_table
        (((new_symbol_table.define "a").1.define "b").1)).define "a").1.resolve "a"
        = some ⟨"a", .Local, 0⟩)
    ∧ (((new_enclosed_symbol_table
        (((new_symbol_table.define "a").1.define "b").1)).define "a").1.resolve "b"
        = some ⟨"b", .Global, 1⟩) := by
  constructor
  · exact (claim_C8_resolve_innermost_first
      (((new_symbol_table.define "a").1.define "b").1) [("a", ⟨"a", .Local, 0⟩)] 1
      "a" ⟨"a", .Local, 0⟩ ⟨"a", .Global, 0⟩).1 rfl rfl
  · exact (claim_C8_resolve_innermost_first
      (((new_symbol_table.define "a").1.define "b").1) [("a", ⟨"a", .Local, 0⟩)] 1
      "b" ⟨"b", .Global, 1⟩ ⟨"b", .Global, 1⟩).2 rfl rfl

/-! ## The compiler's `SymbolTableStack`

`src/compiler/mod.rs` imports a `SymbolTableStack` (with operations
`push`, `pop`, `define`, `resolve`, `last`) from its `symbol_table`
module, but the `symbol_table.rs` under `src/` only contains the linked
`SymbolTable` above.  The stack variant is therefore modelled from the
spec. -/

/-- One scope of the stack: a name map plus its `num_definitions`. -/
structure SymbolTableScope where
  store : List (String × Symbol)
  num_definitions : Nat

/-- Modelled from the spec: the `SymbolTableStack` used by the compiler is
"an ordered sequence of per-scope maps" with depth ≥ 1 (depth 1 = global
scope); the list below is in `Vec` order, the top scope last. -/
structure SymbolTableStack where
  stack : List SymbolTableScope

/-- `new_symbol_table_stack()` : one (global) scope. -/
def new_symbol_table_stack : SymbolTableStack := ⟨[⟨[], 0⟩]⟩

/-- Modelled from the spec: `push()` opens a new scope on top. -/
def SymbolTableStack.push (s : SymbolTableStack) : SymbolTableStack :=
  ⟨s.stack ++ [⟨[], 0⟩]⟩

/-- Modelled from the spec: `pop()` closes the top scope and fails if it
would empty the stack. -/
def SymbolTableStack.pop (s : SymbolTableStack) : Option SymbolTableStack :=
  if s.stack.length ≤ 1 then none else some ⟨s.stack.dropLast⟩

/-- Modelled from the spec: `last()` — the top scope (read by the compiler
for `num_locals`). -/
def SymbolTableStack.last (s : SymbolTableStack) : SymbolTableScope :=
  s.stack.getD (s.stack.length - 1) ⟨[], 0⟩

/-- Modelled from the spec: `define(name)` affects the top scope; the
symbol's scope attribute is `Global` iff the depth is 1, its index is the
top scope's `num_definitions`, which is then incremented. -/
def SymbolTableStack.define (s : SymbolTableStack) (name : String) :
    SymbolTableStack × Symbol :=
  let top := s.last
  let kind := if s.stack.length = 1 then SymbolScope.Global else SymbolScope.Local
  let sym : Symbol := ⟨name, kind, top.num_definitions⟩
  let top' : SymbolTableScope := ⟨storeInsert top.store name sym, top.num_definitions + 1⟩
  (⟨s.stack.set (s.stack.length - 1) top'⟩, sym)

/-- Walk a list of scopes, innermost first. -/
def resolveScopes : List SymbolTableScope → String → Option Symbol
  | [], _ => none
  | sc :: rest, name =>
    match storeGet sc.store name with
    | some s => some s
    | none => resolveScopes rest name

/-- Modelled from the spec: `resolve(name)` searches top-down (innermost
first); the first match wins; walks the whole stack. -/
def SymbolTableStack.resolve (s : SymbolTableStack) (name : String) : Option Symbol :=
  resolveScopes s.stack.reverse name

/-! ## The `Object` value domain

`src/object.rs` is not under `src/`; the value domain is modelled from the
spec: "A tagged union with variants: Integer(i64), Boolean, String, Null,
Array{elements}, Hash{pairs: HashKey → (key, value)},
CompiledFunction{instructions, num_locals}".  `i64` is modelled as
unbounded `Int`; the hash map of a Hash is an ordered association list. -/

/-- Modelled from the spec: HashKey is derived deterministically from the
hashable objects (Integer, Boolean, String). -/
inductive HashKey where
  | int (i : Int)
  | bool (b : Bool)
  | str (s : String)
deriving DecidableEq

/-- `object::CompiledFunction { instructions, num_locals }` (as built by
the compiler in `src/compiler/mod.rs`). -/
structure CompiledFunction where
  instructions : List Nat
  num_locals : Nat


inductive Object where
  | Integer (value : Int)
  | Boolean (value : Bool)
  | Str (value : String)
  | Null
  | Array (elements : List Object)
  | Hash (pairs : List (HashKey × Object × Object))
  | CompiledFunction (func : CompiledFunction)

mutual
/-- Modelled from the spec: structural equality on `Object` (the derived
`PartialEq`); hashes are compared as their pair lists. -/
def objEq : Object → Object → Bool
  | .Integer a, .Integer b => a == b
  | .Boolean a, .Boolean b => a == b
  | .Str a, .Str b => a == b
  | .Null, .Null => true
  | .Array xs, .Array ys => objListEq xs ys
  | .Hash ps, .Hash qs => hashPairsEq ps qs
  | .CompiledFunction f, .CompiledFunction g =>
      f.instructions == g.instructions && f.num_locals == g.num_locals
  | _, _ => false

def objListEq : List Object → List Object → Bool
  | [], [] => true
  | x :: xs, y :: ys => objEq x y && objListEq xs ys
  | _, _ => false

def hashPairsEq : List (HashKey × Object × Object) → List (HashKey × Object × Object) → Bool
  | [], [] => true
  | (k1, a1, b1) :: xs, (k2, a2, b2) :: ys =>
      k1 == k2 && objEq a1 a2 && objEq b1 b2 && hashPairsEq xs ys
  | _, _ => false
end

/-- Modelled from the spec: the `Display` text of an object, used only
inside runtime error message strings (no claim depends on its exact
form; composite objects print their variant name). -/
def Object.display : Object → String
  | .Integer i => toString i
  | .Boolean b => toString b
  | .Str s => s
  | .Null => "null"
  | .Array _ => "Array"
  | .Hash _ => "Hash"
  | .CompiledFunction _ => "CompiledFunction"

/-- Modelled from the spec: `hash_key_of` derives a key from Integer,
Boolean or String and errors with "unusable as hash key" otherwise. -/
def hash_key_of : Object → CompM HashKey
  | .Integer i => .ok (.int i)
  | .Boolean b => .ok (.bool b)
  | .Str s => .ok (.str s)
  | o => .error ("unusable as hash key: " ++ o.display)

/-! ## The AST interface consumed by the compiler

`src/ast.rs` is not under `src/`; the shapes below are modelled from the
spec's "AST interface consumed" (§6) and the fields the compiler reads. -/

mutual
inductive Expression where
  | InfixExpression (operator : String) (left right : Expression)
  | IntegerLiteral (value : Int)
  | Boolean (value : Bool)
  | PrefixExpression (operator : String) (right : Expression)
  | IfExpression (condition : Expression) (consequence : BlockStatement)
      (alternative : Option BlockStatement)
  | Identifier (value : String)
  | StringLiteral (value : String)
  | ArrayLiteral (elements : List Expression)
  | HashLiteral (pairs : List (Expression × Expression))
  | IndexExpression (left index : Expression)
  | FunctionLiteral (parameters : List String) (body : BlockStatement)
  | CallExpression (function : Expression) (arguments : List Expression)

inductive BlockStatement where
  | mk (statements : List Statement)

inductive Statement where
  | ExpressionStatement (expression : Expression)
  | LetStatement (name : String) (value : Expression)
  | ReturnStatement (return_value : Expression)
end

/-- `Program { statements }`. -/
structure Program where
  statements : List Statement

/-! ## `src/compiler/mod.rs` : the compiler -/

/-- `struct EmittedInstruction { opcode, position }`. -/
structure EmittedInstruction where
  opcode : Opcode
  position : Nat

/-- `struct CompilationScope`. -/
structure CompilationScope where
  instructions : List Nat
  last_instruction : Option EmittedInstruction
  previous_instruction : Option EmittedInstruction

def emptyScope : CompilationScope := ⟨[], none, none⟩

/-- `struct Compiler` (the borrowed constants / symbol stack are inlined
as owned state). -/
structure Compiler where
  constants : List Object
  symbol_table_stack : SymbolTableStack
  scopes : List CompilationScope
  scope_index : Nat

/-- `new_constants()`. -/
def new_constants : List Object := []

/-- `Compiler::new_with_state` : a single empty main scope. -/
def Compiler.new_with_state (s : SymbolTableStack) (constants : List Object) : Compiler :=
  ⟨constants, s, [emptyScope], 0⟩

/-- `self.scopes[self.scope_index]` (always in range along compile runs). -/
def Compiler.currentScope (c : Compiler) : CompilationScope :=
  c.scopes.getD c.scope_index emptyScope

def Compiler.setCurrentScope (c : Compiler) (sc : CompilationScope) : Compiler :=
  { c with scopes := c.scopes.set c.scope_index sc }

/-- `Compiler::add_instruction` : append bytes to the current scope's
instructions, return the position of the first new byte. -/
def Compiler.add_instruction (c : Compiler) (ins : List Nat) : Nat × Compiler :=
  let pos := c.currentScope.instructions.length
  (pos, c.setCurrentScope { c.currentScope with
    instructions := c.currentScope.instructions ++ ins })

/-- `Compiler::set_last_instruction`. -/
def Compiler.set_last_instruction (c : Compiler) (op : Opcode) (pos : Nat) : Compiler :=
  c.setCurrentScope { c.currentScope with
    last_instruction := some ⟨op, pos⟩
    previous_instruction := c.currentScope.last_instruction }

def Compiler.emit_ins (c : Compiler) (op : Opcode) (ins : List Nat) : Nat × Compiler :=
  let (pos, c) := c.add_instruction ins
  (pos, c.set_last_instruction op pos)

/-- `Compiler::emit(op)` : zero-operand emission (never fails). -/
def Compiler.emit (c : Compiler) (op : Opcode) : Nat × Compiler :=
  c.emit_ins op (make op)

/-- `Compiler::emit_with_operands(op, operands)` : panics when
`make_with_operands` does. -/
def Compiler.emit_with_operands (c : Compiler) (op : Opcode) (operands : List Nat) :
    CompM (Nat × Compiler) :=
  match make_with_operands op operands with
  | none => .panicked
  | some ins => .ok (c.emit_ins op ins)

/-- `Compiler::add_constant`. -/
def Compiler.add_constant (c : Compiler) (obj : Object) : Nat × Compiler :=
  (c.constants.length, { c with constants := c.constants ++ [obj] })

/-- `Compiler::last_instruction_is`. -/
def Compiler.last_instruction_is (c : Compiler) (op : Opcode) : Bool :=
  match c.currentScope.last_instruction with
  | some emitted => emitted.opcode = op
  | none => false

/-- `Compiler::remove_last_pop` : truncate to the last instruction's
position and promote `previous_instruction` (unwraps `last_instruction`). -/
def Compiler.remove_last_pop (c : Compiler) : CompM Compiler :=
  match c.currentScope.last_instruction with
  | none => .panicked
  | some emitted => .ok (c.setCurrentScope
      { instructions := c.currentScope.instructions.take emitted.position
        last_instruction := c.currentScope.previous_instruction
        previous_instruction := none })

/-- Byte-for-byte overwrite of `l` at `pos` by `new`; `none` (panicking
index) when it would write past the end. -/
def listOverwrite (l : List Nat) (pos : Nat) (new : List Nat) : Option (List Nat) :=
  if pos + new.length ≤ l.length then
    some (l.take pos ++ new ++ l.drop (pos + new.length))
  else none

/-- `Compiler::replace_instruction`. -/
def Compiler.replace_instruction (c : Compiler) (pos : Nat) (new_instuction : List Nat) :
    CompM Compiler :=
  match listOverwrite c.currentScope.instructions pos new_instuction with
  | none => .panicked
  | some ins => .ok (c.setCurrentScope { c.currentScope with instructions := ins })

/-- `Compiler::change_operand` : re-read the opcode byte at `op_pos`,
re-encode it with the new operand, overwrite in place. -/
def Compiler.change_operand (c : Compiler) (op_pos : Nat) (operand : Nat) : CompM Compiler := do
  let byte ← liftOpt (c.currentScope.instructions.get? op_pos)
  let op ← liftOpt (Opcode.fromByte byte)
  let new_instuction ← liftOpt (make_with_operands op [operand])
  c.replace_instruction op_pos new_instuction

/-- `Compiler::enter_scope` : push a fresh compilation scope and a fresh
symbol scope. -/
def Compiler.enter_scope (c : Compiler) : Compiler :=
  { c with
    scopes := c.scopes ++ [emptyScope]
    scope_index := c.scope_index + 1
    symbol_table_stack := c.symbol_table_stack.push }

/-- `Compiler::leave_scope` : pop the top compilation scope (returning its
instructions) and pop the symbol stack. -/
def Compiler.leave_scope (c : Compiler) : CompM (List Nat × Compiler) := do
  let sc ← liftOpt c.scopes.getLast?
  let idx ← liftOpt (usizeSub c.scope_index 1)
  let stk ← liftOpt c.symbol_table_stack.pop
  .ok (sc.instructions,
    { c with scopes := c.scopes.dropLast, scope_index := idx, symbol_table_stack := stk })

/-- `Compiler::replace_last_pop_with_return` : overwrite the last emitted
instruction with `OpReturnValue` and update its recorded opcode. -/
def Compiler.replace_last_pop_with_return (c : Compiler) : CompM Compiler := do
  match c.currentScope.last_instruction with
  | none => .panicked
  | some emitted => do
    let c ← c.replace_instruction emitted.position (make Opcode.OpReturnValue)
    .ok (c.setCurrentScope { c.currentScope with
      last_instruction := some ⟨Opcode.OpReturnValue, emitted.position⟩ })

/-! ### The `Compile` trait implementations (AST → bytecode) -/

mutual
def compileStatementList : List Statement → Compiler → CompM Compiler
  | [], c => .ok c
  | s :: rest, c => do
    let c ← compileStatement s c
    compileStatementList rest c

def compileStatement : Statement → Compiler → CompM Compiler
  | .ExpressionStatement e, c => do
    let c ← compileExpr e c
    .ok (c.emit Opcode.OpPop).2
  | .LetStatement name value, c => do
    let c ← compileExpr value c
    let (stk, symbol) := c.symbol_table_stack.define name
    let c := { c with symbol_table_stack := stk }
    let op := if symbol.is_global then Opcode.OpSetGlobal else Opcode.OpSetLocal
    let (_, c) ← c.emit_with_operands op [symbol.index]
    .ok c
  | .ReturnStatement return_value, c => do
    let c ← compileExpr return_value c
    .ok (c.emit Opcode.OpReturnValue).2

def compileBlock : BlockStatement → Compiler → CompM Compiler
  | .mk statements, c => compileStatementList statements c

def compileExpr : Expression → Compiler → CompM Compiler
  | .InfixExpression operator left right, c => do
    if operator = "<" then
      let c ← compileExpr right c
      let c ← compileExpr left c
      .ok (c.emit Opcode.OpGreaterThan).2
    else do
      let c ← compileExpr left c
      let c ← compileExpr right c
      match operator with
      | "+" => .ok (c.emit Opcode.OpAdd).2
      | "-" => .ok (c.emit Opcode.OpSub).2
      | "*" => .ok (c.emit Opcode.OpMul).2
      | "/" => .ok (c.emit Opcode.OpDiv).2
      | ">" => .ok (c.emit Opcode.OpGreaterThan).2
      | "==" => .ok (c.emit Opcode.OpEqual).2
      | "!=" => .ok (c.emit Opcode.OpNotEqual).2
      | other => .error ("unknown operator " ++ other)
  | .PrefixExpression operator right, c => do
    let c ← compileExpr right c
    match operator with
    | "!" => .ok (c.emit Opcode.OpBang).2
    | "-" => .ok (c.emit Opcode.OpMinus).2
    | other => .error ("unknown operator " ++ other)
  | .IntegerLiteral value, c => do
    let (constant, c) := c.add_constant (Object.Integer value)
    let (_, c) ← c.emit_with_operands Opcode.OpConstant [constant]
    .ok c
  | .Boolean value, c =>
    if value then .ok (c.emit Opcode.OpTrue).2 else .ok (c.emit Opcode.OpFalse).2
  | .IfExpression condition consequence alternative, c => do
    let c ← compileExpr condition c
    let (jump_not_truthy_pos, c) ← c.emit_with_operands Opcode.OpJumpNotTruthy [9999]
    let c ← compileBlock consequence c
    let c ← if c.last_instruction_is Opcode.OpPop then c.remove_last_pop else .ok c
    let (jump_pos, c) ← c.emit_with_operands Opcode.OpJump [9999]
    let after_consequense_pos := c.currentScope.instructions.length
    let c ← c.change_operand jump_not_truthy_pos after_consequense_pos
    let c ← match alternative with
      | some alt => do
        let c ← compileBlock alt c
        if c.last_instruction_is Opcode.OpPop then c.remove_last_pop else .ok c
      | none => .ok (c.emit Opcode.OpNull).2
    let after_alternative_pos := c.currentScope.instructions.length
    c.change_operand jump_pos after_alternative_pos
  | .Identifier value, c =>
    -- the source resolves with `.expect(...)`: a missing symbol PANICS
    -- (it does not return a compile error)
    match c.symbol_table_stack.resolve value with
    | none => .panicked
    | some symbol => do
      let op := if symbol.is_global then Opcode.OpGetGlobal else Opcode.OpGetLocal
      let (_, c) ← c.emit_with_operands op [symbol.index]
      .ok c
  | .StringLiteral value, c => do
    let (constant, c) := c.add_constant (Object.Str value)
    let (_, c) ← c.emit_with_operands Opcode.OpConstant [constant]
    .ok c
  | .ArrayLiteral elements, c => do
    let c ← compileExprList elements c
    let (_, c) ← c.emit_with_operands Opcode.OpArray [elements.length]
    .ok c
  | .HashLiteral pairs, c => do
    let c ← compilePairList pairs c
    let (_, c) ← c.emit_with_operands Opcode.OpHash [pairs.length * 2]
    .ok c
  | .IndexExpression left index, c => do
    let c ← compileExpr left c
    let c ← compileExpr index c
    .ok (c.emit Opcode.OpIndex).2
  | .FunctionLiteral parameters body, c => do
    let c := c.enter_scope
    let c := parameters.foldl (fun c p => ((Compiler.symbol_table_stack c).define p
        |> fun (stk, _) => { c with symbol_table_stack := stk })) c
    let c ← compileBlock body c
    let c ← if c.last_instruction_is Opcode.OpPop then c.replace_last_pop_with_return
      else .ok c
    let c := if ¬c.last_instruction_is Opcode.OpReturnValue then (c.emit Opcode.OpReturn).2
      else c
    let num_locals := c.symbol_table_stack.last.num_definitions
    let (instructions, c) ← c.leave_scope
    let (operand, c) := c.add_constant (Object.CompiledFunction ⟨instructions, num_locals⟩)
    let (_, c) ← c.emit_with_operands Opcode.OpConstant [operand]
    .ok c
  | .CallExpression function arguments, c => do
    let c ← compileExpr function c
    let c ← compileExprList arguments c
    let (_, c) ← c.emit_with_operands Opcode.OpCall [arguments.length]
    .ok c

def compileExprList : List Expression → Compiler → CompM Compiler
  | [], c => .ok c
  | e :: rest, c => do
    let c ← compileExpr e c
    compileExprList rest c

def compilePairList : List (Expression × Expression) → Compiler → CompM Compiler
  | [], c => .ok c
  | (key, value) :: rest, c => do
    let c ← compileExpr key c
    let c ← compileExpr value c
    compilePairList rest c
end

/-- `Compiler::compile(program)` : compile each statement in order. -/
def Compiler.compile (c : Compiler) (program : Program) : CompM Compiler :=
  compileStatementList program.statements c

/-- `Compiler::bytecode()` : pops the (main) scope and yields its
instructions together with the constants. -/
def Compiler.bytecode (c : Compiler) : Option (List Nat × List Object) :=
  c.scopes.getLast?.map (fun sc => (sc.instructions, c.constants))

/-! ### Compiler claims -/

/-- Claim C1 (code bug): the claim says `OpCall` is encoded with exactly
one 1-byte operand.  In `src/code.rs` the `opcode_enum!` table declares
`OpCall: []` (no operands), so `make_with_operands(OpCall, [argc])`
panics for every argc (it indexes `operand_width[0]` of an empty vector)
instead of producing `[OpCall byte, argc]`; consequently every call
expression makes `compile` panic at the `emit_with_operands(OpCall,
[argc])` site instead of emitting the instruction. -/
theorem claim_C1_opcall_operand_panics :
    (∀ argc : Nat, make_with_operands Opcode.OpCall [argc] = none)
    ∧ (∀ (c : Compiler) (argc : Nat),
        c.emit_with_operands Opcode.OpCall [argc] = CompM.panicked)
    ∧ ((Compiler.new_with_state new_symbol_table_stack new_constants).compile
        ⟨[.ExpressionStatement (.CallExpression (.FunctionLiteral [] (.mk [])) [])]⟩
        = CompM.panicked) := by
  refine ⟨fun argc => rfl, fun c argc => rfl, rfl⟩

/-- Claim C4 (code bug): the claim says an unresolvable identifier makes
`compile` return an error result naming the variable.  The source instead
resolves with `.expect(&format!("undefined variable: {}", ...))`, which
panics (aborts the process); compiling a program consisting of the bare
identifier `foo` therefore panics rather than returning `Err`. -/
theorem claim_C4_undefined_identifier_panics :
    (Compiler.new_with_state new_symbol_table_stack new_constants).compile
      ⟨[.ExpressionStatement (.Identifier "foo")]⟩ = CompM.panicked := by
  rfl

/-- Claim C6: compiling `if (true) { 10 }; 3333;` yields the constant pool
`[10, 3333]` and exactly the bytes `OpTrue` (offset 0), `OpJumpNotTruthy
10` (1), `OpConstant 0` (4), `OpJump 11` (7), `OpNull` (10), `OpPop` (11),
`OpConstant 1` (12), `OpPop` (15): the consequence's trailing `OpPop` is
removed, the missing alternative becomes `OpNull`, and the placeholder
jump operands are backpatched to 10 and 11. -/
theorem claim_C6_conditional_compilation :
    ((Compiler.new_with_state new_symbol_table_stack new_constants).compile
        ⟨[.ExpressionStatement (.IfExpression (.Boolean true)
            (.mk [.ExpressionStatement (.IntegerLiteral 10)]) none),
          .ExpressionStatement (.IntegerLiteral 3333)]⟩).bind
      (fun c => liftOpt c.bytecode)
      = CompM.ok
        ([Opcode.OpTrue.byte,
          Opcode.OpJumpNotTruthy.byte, 0, 10,
          Opcode.OpConstant.byte, 0, 0,
          Opcode.OpJump.byte, 0, 11,
          Opcode.OpNull.byte,
          Opcode.OpPop.byte,
          Opcode.OpConstant.byte, 0, 1,
          Opcode.OpPop.byte],
         [Object.Integer 10, Object.Integer 3333]) := by
  rfl

/-! ## `src/vm/frame.rs` : call frames -/

/-- `struct Frame { func, ip, base_pointer }`. -/
structure Frame where
  func : CompiledFunction
  ip : Nat
  base_pointer : Nat

def Frame.instructions (f : Frame) : List Nat := f.func.instructions

/-- `new_frame(func, base_pointer)` : ip starts at 0. -/
def new_frame (func : CompiledFunction) (base_pointer : Nat) : Frame :=
  ⟨func, 0, base_pointer⟩

/-! ## `src/vm/mod.rs` : the virtual machine -/

def STACK_SIZE : Nat := 2048
def GLOBALS_SIZE : Nat := 65536
def MAX_FRAMES : Nat := 1024

def TRUE : Object := .Boolean true
def FALSE : Object := .Boolean false
def NULL : Object := .Null

/-- `struct VM` (borrowed constants/globals inlined as owned state). -/
structure VM where
  constants : List Object
  stack : List Object
  sp : Nat
  last_popped_stack_elem : Option Object
  globals : List Object
  frames : List Frame
  frame_index : Nat

/-- Result of one iteration of the dispatch loop: the loop may exit
(`halted`, when `ip` has reached the end of the current instructions),
panic, return a VM error, or continue with the next state. -/
inductive StepResult where
  | panicked
  | vmError (msg : String)
  | next (vm : VM)
  | halted

/-- `VM::new_with_globals_store` : wrap the main instructions in the
bottom frame.  (`vm/mod.rs` builds `CompiledFunction { instructions }`
without a `num_locals` field and calls `new_frame(main_fn)` without a
base pointer — neither matches the current `object`/`frame` declarations;
0 stands in for both and is never read by any executed arm.) -/
def VM.new_with_globals_store (bytecode : List Nat × List Object) (s : List Object) : VM :=
  { constants := bytecode.2
    stack := []
    sp := 0
    last_popped_stack_elem := none
    globals := s
    frames := [new_frame ⟨bytecode.1, 0⟩ 0]
    frame_index := 1 }

def emptyFrame : Frame := ⟨⟨[], 0⟩, 0, 0⟩

/-- `self.frames[self.frame_index - 1]`. -/
def VM.currentFrame (vm : VM) : Frame :=
  vm.frames.getD (vm.frame_index - 1) emptyFrame

/-- Store `ip` into the current frame. -/
def VM.withIp (vm : VM) (ip : Nat) : VM :=
  { vm with frames := vm.frames.set (vm.frame_index - 1) { vm.currentFrame with ip := ip } }

/-- The dispatch loop's trailing `self.current_frame().ip += 1`. -/
def VM.incIp (vm : VM) : VM := vm.withIp (vm.currentFrame.ip + 1)

/-- `VM::push` : errors with "stack overflow" at capacity. -/
def VM.push (vm : VM) (o : Object) : CompM VM :=
  if STACK_SIZE ≤ vm.sp then .error "stack overflow"
  else .ok { vm with stack := vm.stack ++ [o], sp := vm.sp + 1 }

/-- `VM::pop` : `Vec::pop` + `sp -= 1` + `unwrap()`, recording the popped
value in `last_popped_stack_elem`.  Panics on an empty stack / `sp = 0`. -/
def VM.pop (vm : VM) : CompM (Object × VM) := do
  let sp' ← liftOpt (usizeSub vm.sp 1)
  let o ← liftOpt vm.stack.getLast?
  .ok (o, { vm with stack := vm.stack.dropLast, sp := sp', last_popped_stack_elem := some o })

/-- `VM::push_frame`. -/
def VM.push_frame (vm : VM) (frame : Frame) : VM :=
  { vm with frames := vm.frames ++ [frame], frame_index := vm.frame_index + 1 }

/-- `VM::pop_frame` : `frame_index -= 1` then `frames.pop().unwrap()`. -/
def VM.pop_frame (vm : VM) : CompM (Frame × VM) := do
  let fi ← liftOpt (usizeSub vm.frame_index 1)
  let f ← liftOpt vm.frames.getLast?
  .ok (f, { vm with frame_index := fi, frames := vm.frames.dropLast })

def native_bool_to_boolean_object (input : Bool) : Object :=
  if input then TRUE else FALSE

/-- `VM::is_truthy` : everything except `Boolean(false)` and `Null`. -/
def is_truthy : Object → Bool
  | .Boolean boolean => boolean
  | .Null => false
  | _ => true

/-- The smallest `i64` value, `-2^63`. -/
def i64_min : Int := -(2 ^ 63)

/-- `VM::execute_binary_integer_operation` : Rust `i64` arithmetic.  The
values are modelled as unbounded `Int` (add/sub/mul overflow is
build-profile-dependent in Rust and exercised by no claim), but Rust's
`/` has two unconditional panics in every build profile, and both are
modelled: a zero divisor, and the overflowing `i64::MIN / -1`.
Otherwise `/` is truncation toward zero (`Int.tdiv`). -/
def execute_binary_integer_operation (op : Opcode) (left_value right_value : Int)
    (vm : VM) : CompM VM := do
  let result ← match op with
    | .OpAdd => .ok (left_value + right_value)
    | .OpSub => .ok (left_value - right_value)
    | .OpMul => .ok (left_value * right_value)
    | .OpDiv =>
      if right_value = 0 then .panicked
      else if left_value = i64_min ∧ right_value = -1 then .panicked
      else .ok (left_value.tdiv right_value)
    | _ => .error ("unknown integer oprerator: " ++ (lookup op).name)
  vm.push (Object.Integer result)

/-- `VM::execute_binary_string_operation`. -/
def execute_binary_string_operation (op : Opcode) (left_value right_value : String)
    (vm : VM) : CompM VM :=
  match op with
  | .OpAdd => vm.push (Object.Str (left_value ++ right_value))
  | _ => .error ("unknown string operator: " ++ (lookup op).name)

/-- `VM::execute_binary_operation` : pop right, pop left; dispatch on the
pair of variants. -/
def execute_binary_operation (op : Opcode) (vm : VM) : CompM VM := do
  let (right, vm) ← vm.pop
  let (left, vm) ← vm.pop
  match left, right with
  | .Integer left_value, .Integer right_value =>
    execute_binary_integer_operation op left_value right_value vm
  | .Str left_value, .Str right_value =>
    execute_binary_string_operation op left_value right_value vm
  | _, _ =>
    .error ("unsupported object: right: " ++ right.display ++ ", left: " ++ left.display)

/-- `VM::execute_integer_comparison` — note the argument roles: its
caller binds `left_value` from the popped right operand and `right_value`
from the popped left operand, so `OpGreaterThan`'s
`right_value > left_value` is the original `left > right`. -/
def execute_integer_comparison (op : Opcode) (left_value right_value : Int)
    (vm : VM) : CompM VM :=
  match op with
  | .OpEqual => vm.push (native_bool_to_boolean_object (right_value == left_value))
  | .OpNotEqual => vm.push (native_bool_to_boolean_object (right_value != left_value))
  | .OpGreaterThan =>
    vm.push (native_bool_to_boolean_object (decide (right_value > left_value)))
  | _ => .error ("unknown operator: " ++ (lookup op).name)

/-- `VM::execute_comparison` : pop right, pop left; the source's `if let
(Object::Integer(left_value), Object::Integer(right_value)) = (&right,
&left)` destructures the tuple `(right, left)`, so `left_value` is bound
from `right` and `right_value` from `left`. -/
def execute_comparison (op : Opcode) (vm : VM) : CompM VM := do
  let (right, vm) ← vm.pop
  let (left, vm) ← vm.pop
  match right, left with
  | .Integer left_value, .Integer right_value =>
    execute_integer_comparison op left_value right_value vm
  | _, _ =>
    match op with
    | .OpEqual => vm.push (native_bool_to_boolean_object (objEq right left))
    | .OpNotEqual => vm.push (native_bool_to_boolean_object (!objEq right left))
    | _ => .error ("unknown operator: " ++ (lookup op).name ++ " "
        ++ right.display ++ " " ++ left.display)

/-- `VM::execute_bang_operator`. -/
def execute_bang_operator (vm : VM) : CompM VM := do
  let (operand, vm) ← vm.pop
  match operand with
  | .Boolean true => vm.push FALSE
  | .Boolean false => vm.push TRUE
  | .Null => vm.push TRUE
  | _ => vm.push FALSE

/-- `VM::execute_minus_operator`. -/
def execute_minus_operator (vm : VM) : CompM VM := do
  let (operand, vm) ← vm.pop
  match operand with
  | .Integer integer => vm.push (Object.Integer (-integer))
  | _ => .error ("unsupported type for negation: " ++ operand.display)

/-- `VM::build_array` : `stack.drain(start..end)` (panics when the range
is invalid) collected into an Array. -/
def VM.build_array (vm : VM) (start_index end_index : Nat) : CompM (Object × VM) :=
  if start_index ≤ end_index ∧ end_index ≤ vm.stack.length then
    .ok (Object.Array ((vm.stack.drop start_index).take (end_index - start_index)),
      { vm with stack := vm.stack.take start_index ++ vm.stack.drop end_index })
  else .panicked

/-- `HashMap::insert` for the hash pairs: replace the pair bound to the
key if present, otherwise append. -/
def hashInsert : List (HashKey × Object × Object) → HashKey → Object → Object →
    List (HashKey × Object × Object)
  | [], k, key, value => [(k, key, value)]
  | (k', key', value') :: rest, k, key, value =>
    if k' = k then (k, key, value) :: rest
    else (k', key', value') :: hashInsert rest k key value

/-- `HashMap::get` for the hash pairs. -/
def hashGet : List (HashKey × Object × Object) → HashKey → Option (Object × Object)
  | [], _ => none
  | (k', key, value) :: rest, k => if k' = k then some (key, value) else hashGet rest k

/-- The `while let (Some(key), Some(value)) = (drain.next(), drain.next())`
loop of `build_hash`: later insertions overwrite earlier ones; a trailing
odd element is consumed and dropped. -/
def buildHashPairs : List Object → List (HashKey × Object × Object) →
    CompM (List (HashKey × Object × Object))
  | key :: value :: rest, pairs => do
    let hash_key ← hash_key_of key
    buildHashPairs rest (hashInsert pairs hash_key key value)
  | _, pairs => .ok pairs

/-- `VM::build_hash`. -/
def VM.build_hash (vm : VM) (start_index end_index : Nat) : CompM (Object × VM) :=
  if start_index ≤ end_index ∧ end_index ≤ vm.stack.length then do
    let pairs ← buildHashPairs ((vm.stack.drop start_index).take (end_index - start_index)) []
    .ok (Object.Hash pairs,
      { vm with stack := vm.stack.take start_index ++ vm.stack.drop end_index })
  else .panicked

/-- `VM::execute_array_index` : out-of-range or negative pushes NULL. -/
def execute_array_index (elements : List Object) (index : Int) (vm : VM) : CompM VM :=
  if index < 0 ∨ elements.length < index.toNat + 1 then vm.push NULL
  else do
    let o ← liftOpt (elements.get? index.toNat)
    vm.push o

/-- `VM::execute_hash_index`. -/
def execute_hash_index (pairs : List (HashKey × Object × Object)) (index : Object)
    (vm : VM) : CompM VM := do
  let key ← hash_key_of index
  match hashGet pairs key with
  | some pair => vm.push pair.2
  | none => vm.push NULL

/-- `VM::execute_index_expression`. -/
def execute_index_expression (left index : Object) (vm : VM) : CompM VM :=
  match left, index with
  | .Array elements, .Integer integer => execute_array_index elements integer vm
  | .Hash pairs, i => execute_hash_index pairs i vm
  | l, _ => .error ("index operator not supported: " ++ l.display)

/-- Wrap an opcode arm's outcome and perform the dispatch loop's trailing
`ip += 1` on success. -/
def stepOf : CompM VM → StepResult
  | .panicked => .panicked
  | .error msg => .vmError msg
  | .ok vm => .next vm.incIp

/-- One iteration of `VM::run`'s dispatch loop, translated arm by arm
from `src/vm/mod.rs`.  `halted` is the loop condition `ip <
instructions.len()` failing.  A successful `OpCall` `continue`s, skipping
the trailing increment; `OpGetLocal` / `OpSetLocal` fall into the
`_ => todo!("unknown Opcode")` arm, i.e. they panic. -/
def vmStep (vm : VM) : StepResult :=
  let fr := vm.currentFrame
  match fr.func.instructions.get? fr.ip with
  | none => .halted
  | some byte =>
    match Opcode.fromByte byte with
    | none => .panicked
    | some op =>
      match op with
      | .OpConstant => stepOf do
        let const_index ← liftOpt (read_uint16 fr.func.instructions (fr.ip + 1))
        let vm := vm.withIp (fr.ip + 2)
        let constant ← liftOpt (vm.constants.get? const_index)
        vm.push constant
      | .OpAdd | .OpSub | .OpMul | .OpDiv => stepOf (execute_binary_operation op vm)
      | .OpPop => stepOf do
        let (_, vm) ← vm.pop
        .ok vm
      | .OpTrue => stepOf (vm.push TRUE)
      | .OpFalse => stepOf (vm.push FALSE)
      | .OpEqual | .OpNotEqual | .OpGreaterThan => stepOf (execute_comparison op vm)
      | .OpBang => stepOf (execute_bang_operator vm)
      | .OpMinus => stepOf (execute_minus_operator vm)
      | .OpJump => stepOf do
        let pos ← liftOpt (read_uint16 fr.func.instructions (fr.ip + 1))
        let newIp ← liftOpt (usizeSub pos 1)
        .ok (vm.withIp newIp)
      | .OpJumpNotTruthy => stepOf do
        let pos ← liftOpt (read_uint16 fr.func.instructions (fr.ip + 1))
        let vm := vm.withIp (fr.ip + 2)
        let (condition, vm) ← vm.pop
        if is_truthy condition then .ok vm
        else do
          let newIp ← liftOpt (usizeSub pos 1)
          .ok (vm.withIp newIp)
      | .OpNull => stepOf (vm.push NULL)
      | .OpSetGlobal => stepOf do
        let global_index ← liftOpt (read_uint16 fr.func.instructions (fr.ip + 1))
        let vm := vm.withIp (fr.ip + 2)
        let (popped, vm) ← vm.pop
        if vm.globals.length = global_index then
          .ok { vm with globals := vm.globals ++ [popped] }
        else if global_index < vm.globals.length then
          .ok { vm with globals := vm.globals.set global_index popped }
        else .panicked
      | .OpGetGlobal => stepOf do
        let global_index ← liftOpt (read_uint16 fr.func.instructions (fr.ip + 1))
        let vm := vm.withIp (fr.ip + 2)
        let obj ← liftOpt (vm.globals.get? global_index)
        vm.push obj
      | .OpArray => stepOf do
        let num_elements ← liftOpt (read_uint16 fr.func.instructions (fr.ip + 1))
        let vm := vm.withIp (fr.ip + 2)
        let start ← liftOpt (usizeSub vm.sp num_elements)
        let (array, vm) ← vm.build_array start vm.sp
        let vm := { vm with sp := start }
        vm.push array
      | .OpHash => stepOf do
        let num_elements ← liftOpt (read_uint16 fr.func.instructions (fr.ip + 1))
        let vm := vm.withIp (fr.ip + 2)
        let start ← liftOpt (usizeSub vm.sp num_elements)
        let (hash, vm) ← vm.build_hash start vm.sp
        let vm := { vm with sp := start }
        vm.push hash
      | .OpIndex => stepOf do
        let (index, vm) ← vm.pop
        let (left, vm) ← vm.pop
        execute_index_expression left index vm
      | .OpCall =>
        -- `let obj = &self.stack[self.sp - 1]` : the callee is read from
        -- the TOP of the stack; no operand (argc) is read at all, and the
        -- pushed frame gets no base pointer (`new_frame(func.clone())`
        -- does not even match frame.rs's two-argument signature; 0 stands
        -- in and is never read).  On success the arm `continue`s.
        match usizeSub vm.sp 1 with
        | none => .panicked
        | some i =>
          match vm.stack.get? i with
          | none => .panicked
          | some obj =>
            match obj with
            | .CompiledFunction func => .next (vm.push_frame (new_frame func 0))
            | _ => .vmError "calling non-function"
      | .OpReturnValue => stepOf do
        let (return_value, vm) ← vm.pop
        let (_, vm) ← vm.pop_frame
        let (_, vm) ← vm.pop
        vm.push return_value
      | .OpReturn => stepOf do
        let (_, vm) ← vm.pop_frame
        let (_, vm) ← vm.pop
        vm.push NULL
      | .OpGetLocal | .OpSetLocal => .panicked

/-- `VM::stack_top`. -/
def VM.stack_top (vm : VM) : Option Object :=
  if 0 < vm.sp then vm.stack.get? (vm.sp - 1) else none

/-! ### VM claims -/

/-- A VM state whose bottom frame runs `ins` over operand stack `stack`
(the shape produced by `new_with_globals_store` plus some pushes). -/
def vmWith (ins : List Nat) (stack : List Object) : VM :=
  { constants := []
    stack := stack
    sp := stack.length
    last_popped_stack_elem := none
    globals := []
    frames := [new_frame ⟨ins, 0⟩ 0]
    frame_index := 1 }

/-- Claim C2 (code bug): the claim says `OpCall` takes the callee from
`stack[sp − 1 − argc]` and pushes a frame with `base_pointer = sp − argc`.
The VM instead reads `stack[sp − 1]` (the top of the stack), reads no argc
operand, and pushes a frame without computing a base pointer.  First
conjunct: with the operand stack of a one-argument call (`argc = 1`:
callee below one argument) the run errors with "calling non-function"
instead of calling the function at `stack[sp − 2]`.  Second conjunct: the
arm only succeeds when the callee itself is on top (its frame starting at
ip 0, the stack left in place). -/
theorem claim_C2_opcall_reads_stack_top :
    (vmStep (vmWith [Opcode.OpCall.byte]
        [.CompiledFunction ⟨[Opcode.OpReturn.byte], 0⟩, .Integer 24])
      = .vmError "calling non-function")
    ∧ (∃ vm', vmStep (vmWith [Opcode.OpCall.byte]
        [.Integer 24, .CompiledFunction ⟨[Opcode.OpReturn.byte], 0⟩])
        = .next vm'
      ∧ vm'.frame_index = 2
      ∧ vm'.currentFrame.func = (⟨[Opcode.OpReturn.byte], 0⟩ : CompiledFunction)
      ∧ vm'.currentFrame.ip = 0
      ∧ vm'.stack = [.Integer 24, .CompiledFunction ⟨[Opcode.OpReturn.byte], 0⟩]) :=
  ⟨rfl, ⟨_, rfl, rfl, rfl, rfl, rfl⟩⟩

/-- Claim C3 (code bug): the claim says the dispatch loop handles
`OpGetLocal(idx)` and `OpSetLocal(idx)` (accessing
`stack[base_pointer + idx]`) without aborting.  Both opcodes fall into
the loop's `_ => todo!("unknown Opcode")` arm and panic. -/
theorem claim_C3_locals_panic :
    vmStep (vmWith [Opcode.OpGetLocal.byte, 0] []) = .panicked
    ∧ vmStep (vmWith [Opcode.OpSetLocal.byte, 0] [.Integer 1]) = .panicked :=
  ⟨rfl, rfl⟩

/-! ### Reduction lemmas for `CompM` and `VM.pop` -/

@[simp] theorem CompM.bind_ok {α β : Type} (a : α) (f : α → CompM β) :
    CompM.bind (.ok a) f = f a := rfl

@[simp] theorem CompM.bind_error {α β : Type} (msg : String) (f : α → CompM β) :
    CompM.bind (.error msg) f = .error msg := rfl

@[simp] theorem CompM.bind_panicked {α β : Type} (f : α → CompM β) :
    CompM.bind (.panicked : CompM α) f = .panicked := rfl

@[simp] theorem CompM.monad_bind {α β : Type} (x : CompM α) (f : α → CompM β) :
    x >>= f = CompM.bind x f := rfl

@[simp] theorem CompM.monad_pure {α : Type} (a : α) :
    (pure a : CompM α) = .ok a := rfl

@[simp] theorem liftOpt_some {α : Type} (a : α) : liftOpt (some a) = CompM.ok a := rfl

@[simp] theorem liftOpt_none {α : Type} : liftOpt (none : Option α) = CompM.panicked := rfl

/-- Popping a stack presented as `rest ++ [x]`. -/
theorem VM.pop_concat (vm : VM) (rest : List Object) (x : Object)
    (hstack : vm.stack = rest ++ [x]) (hsp : vm.sp = rest.length + 1) :
    vm.pop = .ok (x, { vm with
      stack := rest
      sp := rest.length
      last_popped_stack_elem := some x }) := by
  simp [VM.pop, hstack, hsp, usizeSub]

/-- The two successive pops of a binary arm, on a stack presented as
`rest ++ [x, y]` : first `y` (the right operand), then `x` (the left). -/
theorem VM.pop2_concat (vm : VM) (rest : List Object) (x y : Object)
    (hstack : vm.stack = rest ++ [x, y])
    (hsp : vm.sp = rest.length + 2) :
    vm.pop = .ok (y, { vm with
      stack := rest ++ [x]
      sp := rest.length + 1
      last_popped_stack_elem := some y })
    ∧ ({ vm with
      stack := rest ++ [x]
      sp := rest.length + 1
      last_popped_stack_elem := some y } : VM).pop = .ok (x, { vm with
        stack := rest
        sp := rest.length
        last_popped_stack_elem := some x }) := by
  constructor
  · have h1 : vm.stack = (rest ++ [x]) ++ [y] := by simp [hstack]
    have h1sp : vm.sp = (rest ++ [x]).length + 1 := by simp [hsp]
    simpa using vm.pop_concat _ _ h1 h1sp
  · simpa using VM.pop_concat _ rest x rfl (by simp)

/-- Whether an `Object` is an `Integer`. -/
def isInteger : Object → Bool
  | .Integer _ => true
  | _ => false

/-- Claim C7: every comparison opcode pops the right operand then the
left operand (so `last_popped_stack_elem` ends up holding the left one).
On two Integers it pushes the Boolean of the numeric comparison — in
particular `OpGreaterThan` pushes `Boolean (left > right)` (the source
swaps the operand roles twice, so the double swap cancels).  And
`OpGreaterThan` on operands that are not both integers returns an error
instead of pushing. -/
theorem claim_C7_comparison_semantics (vm : VM) (rest : List Object) (a b : Int)
    (hstack : vm.stack = rest ++ [.Integer a, .Integer b])
    (hsp : vm.sp = rest.length + 2)
    (hcap : rest.length < 2048) :
    (execute_comparison .OpEqual vm = .ok { vm with
        stack := rest ++ [native_bool_to_boolean_object (a == b)]
        sp := rest.length + 1
        last_popped_stack_elem := some (.Integer a) })
    ∧ (execute_comparison .OpNotEqual vm = .ok { vm with
        stack := rest ++ [native_bool_to_boolean_object (a != b)]
        sp := rest.length + 1
        last_popped_stack_elem := some (.Integer a) })
    ∧ (execute_comparison .OpGreaterThan vm = .ok { vm with
        stack := rest ++ [native_bool_to_boolean_object (decide (a > b))]
        sp := rest.length + 1
        last_popped_stack_elem := some (.Integer a) })
    ∧ (∀ (vm₂ : VM) (x y : Object), vm₂.stack = rest ++ [x, y] →
        vm₂.sp = rest.length + 2 →
        (isInteger x && isInteger y) = false →
        ∃ msg, execute_comparison .OpGreaterThan vm₂ = .error msg) := by
  obtain ⟨p1, p2⟩ := vm.pop2_concat rest (.Integer a) (.Integer b) hstack hsp
  have hpush : ¬ (STACK_SIZE ≤ rest.length) := by
    simp [STACK_SIZE]; omega
  refine ⟨?_, ?_, ?_, ?_⟩
  · simp [execute_comparison, p1, p2, execute_integer_comparison, VM.push, hpush]
  · simp [execute_comparison, p1, p2, execute_integer_comparison, VM.push, hpush]
  · simp [execute_comparison, p1, p2, execute_integer_comparison, VM.push, hpush]
  · intro vm₂ x y hst2 hsp2 hni
    obtain ⟨q1, q2⟩ := vm₂.pop2_concat rest x y hst2 hsp2
    cases x <;> cases y <;>
      simp_all [execute_comparison, execute_integer_comparison, isInteger]

/-- Witness for C7 at concrete inputs: `3 > 2` pushes `Boolean true`
(with `Integer 3`, the left operand, popped last), and `OpGreaterThan` on
two Booleans errors. -/
theorem claim_C7_witness :
    (execute_comparison .OpGreaterThan (vmWith [] [.Integer 3, .Integer 2])
      = .ok { (vmWith [] [.Integer 3, .Integer 2]) with
          stack := [native_bool_to_boolean_object (decide ((3 : Int) > 2))]
          sp := 1
          last_popped_stack_elem := some (.Integer 3) })
    ∧ (∃ msg, execute_comparison .OpGreaterThan
        (vmWith [] [.Boolean true, .Boolean false]) = .error msg) := by
  constructor
  · exact (claim_C7_comparison_semantics (vmWith [] [.Integer 3, .Integer 2])
      [] 3 2 rfl rfl (by decide)).2.2.1
  · exact (claim_C7_comparison_semantics (vmWith [] [.Integer 3, .Integer 2])
      [] 3 2 rfl rfl (by decide)).2.2.2
      (vmWith [] [.Boolean true, .Boolean false]) (.Boolean true) (.Boolean false)
      rfl rfl rfl

/-- Counterexample to claim C10 as stated: the claim's nonzero-divisor
precondition is not enough for the push.  At `left = i64::MIN = -2^63`
and the nonzero divisor `right = -1`, Rust's `i64` division panics
unconditionally (overflow), so the executed `OpDiv` panics instead of
pushing `Integer (left / right)`. -/
theorem claim_C10_counterexample :
    execute_binary_operation .OpDiv
      (vmWith [] [.Integer i64_min, .Integer (-1)]) = .panicked
    ∧ ((-1 : Int) ≠ 0) := by
  constructor
  · rfl
  · decide

/-- Claim C10 (amended): an executed `OpDiv` with two Integer operands
pushes `Integer (left / right)` with Rust's truncation toward zero
(`Int.tdiv`) whenever the divisor is nonzero and `(left, right)` is not
the overflowing `(i64::MIN, -1)`; with divisor 0 — and likewise at
`i64::MIN / -1` — the step panics: it never produces a runtime-error
string, so the arm is total only under those preconditions. -/
theorem claim_C10_opdiv_semantics (vm : VM) (rest : List Object) (a b : Int)
    (hstack : vm.stack = rest ++ [.Integer a, .Integer b])
    (hsp : vm.sp = rest.length + 2)
    (hcap : rest.length < 2048) :
    (b ≠ 0 → ¬(a = i64_min ∧ b = -1) →
      execute_binary_operation .OpDiv vm = .ok { vm with
        stack := rest ++ [.Integer (a.tdiv b)]
        sp := rest.length + 1
        last_popped_stack_elem := some (.Integer a) })
    ∧ (b = 0 → execute_binary_operation .OpDiv vm = .panicked)
    ∧ (a = i64_min → b = -1 → execute_binary_operation .OpDiv vm = .panicked) := by
  obtain ⟨p1, p2⟩ := vm.pop2_concat rest (.Integer a) (.Integer b) hstack hsp
  have hpush : ¬ (STACK_SIZE ≤ rest.length) := by
    simp [STACK_SIZE]; omega
  refine ⟨?_, ?_, ?_⟩
  · intro hb hmin
    simp [execute_binary_operation, p1, p2, execute_binary_integer_operation, hb, hmin,
      VM.push, hpush]
  · intro hb
    subst hb
    simp [execute_binary_operation, p1, p2, execute_binary_integer_operation]
  · intro ha hb
    subst ha
    subst hb
    simp [execute_binary_operation, p1, p2, execute_binary_integer_operation]

/-- Witness for C10 at concrete inputs: `(-7) / 2` pushes `Integer (-3)`
(truncation toward zero), and `1 / 0` panics. -/
theorem claim_C10_witness :
    (execute_binary_operation .OpDiv (vmWith [] [.Integer (-7), .Integer 2])
      = .ok { (vmWith [] [.Integer (-7), .Integer 2]) with
          stack := [.Integer (-3)]
          sp := 1
          last_popped_stack_elem := some (.Integer (-7)) })
    ∧ execute_binary_operation .OpDiv (vmWith [] [.Integer 1, .Integer 0]) = .panicked := by
  constructor
  · have h := (claim_C10_opdiv_semantics (vmWith [] [.Integer (-7), .Integer 2])
      [] (-7) 2 rfl rfl (by decide)).1 (by decide) (by decide)
    simpa using h
  · exact (claim_C10_opdiv_semantics (vmWith [] [.Integer 1, .Integer 0])
      [] 1 0 rfl rfl (by decide)).2.1 rfl

/-! ### Frame bookkeeping lemmas (for the jump claim) -/

theorem getD_set_self {α : Type _} (l : List α) (i : Nat) (v d : α) (h : i < l.length) :
    (l.set i v).getD i d = v := by
  simp [List.getD, List.getElem?_set_eq_of_lt v h]

theorem VM.currentFrame_withIp (vm : VM) (h : vm.frame_index - 1 < vm.frames.length)
    (i : Nat) : (vm.withIp i).currentFrame = { vm.currentFrame with ip := i } := by
  unfold VM.withIp VM.currentFrame
  exact getD_set_self _ _ _ _ (by simpa using h)

theorem VM.withIp_withIp (vm : VM) (h : vm.frame_index - 1 < vm.frames.length)
    (i j : Nat) : (vm.withIp i).withIp j = vm.withIp j := by
  have hcf := vm.currentFrame_withIp h i
  show ({ vm.withIp i with
    frames := (vm.withIp i).frames.set ((vm.withIp i).frame_index - 1)
      { (vm.withIp i).currentFrame with ip := j } } : VM) = _
  rw [hcf]
  show ({ vm with
    frames := ((vm.frames.set (vm.frame_index - 1) _).set (vm.frame_index - 1)
      { vm.currentFrame with ip := j }) } : VM) = _
  rw [List.set_set]
  rfl

theorem VM.incIp_withIp (vm : VM) (h : vm.frame_index - 1 < vm.frames.length)
    (i : Nat) : (vm.withIp i).incIp = vm.withIp (i + 1) := by
  unfold VM.incIp
  rw [vm.currentFrame_withIp h i]
  exact vm.withIp_withIp h i (i + 1)

theorem VM.withIp_fields (vm : VM) (h : vm.frame_index - 1 < vm.frames.length)
    (i j : Nat) (s : List Object) (p : Nat) (l : Option Object) :
    ({ vm.withIp i with
      stack := s
      sp := p
      last_popped_stack_elem := l } : VM).withIp j
    = ({ vm with
      stack := s
      sp := p
      last_popped_stack_elem := l } : VM).withIp j := by
  show ((({ vm with stack := s, sp := p, last_popped_stack_elem := l } : VM).withIp i).withIp j) = _
  exact VM.withIp_withIp
    ({ vm with stack := s, sp := p, last_popped_stack_elem := l } : VM) h i j

/-- Claim C9: the jump step is total only for targets ≥ 1.  For an
executed `OpJump pos` (and an executed `OpJumpNotTruthy pos` whose popped
condition is not truthy), with `pos ≥ 1` the handler sets `ip := pos − 1`
and the loop's trailing increment restores `pos`, so the next instruction
executed is the one at byte offset exactly `pos`; with `pos = 0` the
unsigned `pos − 1` underflows and the step panics (it neither jumps to
offset 0 nor returns a VM error). -/
theorem claim_C9_jump_target_offsets :
    (∀ (vm : VM) (b1 b2 : Nat),
      vm.frame_index - 1 < vm.frames.length →
      vm.currentFrame.func.instructions.get? vm.currentFrame.ip
        = some Opcode.OpJump.byte →
      vm.currentFrame.func.instructions.get? (vm.currentFrame.ip + 1) = some b1 →
      vm.currentFrame.func.instructions.get? (vm.currentFrame.ip + 2) = some b2 →
      (1 ≤ b1 * 256 + b2 → vmStep vm = .next (vm.withIp (b1 * 256 + b2)))
      ∧ (b1 * 256 + b2 = 0 → vmStep vm = .panicked))
    ∧ (∀ (vm : VM) (b1 b2 : Nat) (rest : List Object) (cond : Object),
      vm.frame_index - 1 < vm.frames.length →
      vm.currentFrame.func.instructions.get? vm.currentFrame.ip
        = some Opcode.OpJumpNotTruthy.byte →
      vm.currentFrame.func.instructions.get? (vm.currentFrame.ip + 1) = some b1 →
      vm.currentFrame.func.instructions.get? (vm.currentFrame.ip + 2) = some b2 →
      vm.stack = rest ++ [cond] →
      vm.sp = rest.length + 1 →
      is_truthy cond = false →
      (1 ≤ b1 * 256 + b2 → vmStep vm = .next (({ vm with
          stack := rest
          sp := rest.length
          last_popped_stack_elem := some cond } : VM).withIp (b1 * 256 + b2)))
      ∧ (b1 * 256 + b2 = 0 → vmStep vm = .panicked)) := by
  have hfrom14 : Opcode.fromByte Opcode.OpJump.byte = some Opcode.OpJump := rfl
  have hfrom13 : Opcode.fromByte Opcode.OpJumpNotTruthy.byte
    = some Opcode.OpJumpNotTruthy := rfl
  constructor
  · intro vm b1 b2 hfi hop hb1 hb2
    have hread : read_uint16 vm.currentFrame.func.instructions (vm.currentFrame.ip + 1)
        = some (b1 * 256 + b2) := by
      have hb1' : vm.currentFrame.func.instructions[vm.currentFrame.ip + 1]? = some b1 := by
        simpa using hb1
      have hb2' : vm.currentFrame.func.instructions[vm.currentFrame.ip + 1 + 1]? = some b2 := by
        simpa [Nat.add_assoc] using hb2
      simp [read_uint16, hb1', hb2']
    constructor
    · intro hpos
      simp only [vmStep, hop, hfrom14, hread, liftOpt_some, CompM.monad_bind,
        CompM.bind_ok, stepOf, usizeSub, if_pos hpos]
      rw [vm.incIp_withIp hfi, Nat.sub_add_cancel hpos]
    · intro hpos
      simp only [vmStep, hop, hfrom14, hread, liftOpt_some, CompM.monad_bind,
        CompM.bind_ok, stepOf, usizeSub, hpos]
      simp
  · intro vm b1 b2 rest cond hfi hop hb1 hb2 hstack hsp htr
    have hread : read_uint16 vm.currentFrame.func.instructions (vm.currentFrame.ip + 1)
        = some (b1 * 256 + b2) := by
      have hb1' : vm.currentFrame.func.instructions[vm.currentFrame.ip + 1]? = some b1 := by
        simpa using hb1
      have hb2' : vm.currentFrame.func.instructions[vm.currentFrame.ip + 1 + 1]? = some b2 := by
        simpa [Nat.add_assoc] using hb2
      simp [read_uint16, hb1', hb2']
    have hpop := VM.pop_concat (vm.withIp (vm.currentFrame.ip + 2)) rest cond hstack hsp
    constructor
    · intro hpos
      simp only [vmStep, hop, hfrom13, hread, liftOpt_some, CompM.monad_bind,
        CompM.bind_ok, stepOf, hpop, htr, Bool.false_eq_true, if_false,
        usizeSub, if_pos hpos]
      refine congrArg StepResult.next ?_
      refine Eq.trans (VM.incIp_withIp _ (by simpa [VM.withIp] using hfi) _) ?_
      rw [Nat.sub_add_cancel hpos]
      exact VM.withIp_fields vm hfi (vm.currentFrame.ip + 2) (b1 * 256 + b2)
        rest rest.length (some cond)
    · intro hpos
      simp only [vmStep, hop, hfrom13, hread, liftOpt_some, CompM.monad_bind,
        CompM.bind_ok, stepOf, hpop, htr, Bool.false_eq_true, if_false,
        usizeSub, hpos]
      simp

/-- Witness for C9 at concrete inputs: `OpJump 5` lands on ip 5 and
`OpJump 0` panics; `OpJumpNotTruthy 3` over a false condition pops it and
lands on ip 3, `OpJumpNotTruthy 0` panics. -/
theorem claim_C9_witness :
    (vmStep (vmWith [14, 0, 5, 23, 23, 23] []) = .next ((vmWith [14, 0, 5, 23, 23, 23] []).withIp 5))
    ∧ (vmStep (vmWith [14, 0, 0] []) = .panicked)
    ∧ (vmStep (vmWith [13, 0, 3, 23] [.Boolean false]) = .next (({ vmWith [13, 0, 3, 23] [.Boolean false] with
        stack := []
        sp := 0
        last_popped_stack_elem := some (.Boolean false) } : VM).withIp 3))
    ∧ (vmStep (vmWith [13, 0, 0, 23] [.Boolean false]) = .panicked) := by
  refine ⟨?_, ?_, ?_, ?_⟩
  · exact (claim_C9_jump_target_offsets.1 (vmWith [14, 0, 5, 23, 23, 23] []) 0 5
      (by decide) rfl rfl rfl).1 (by decide)
  · exact (claim_C9_jump_target_offsets.1 (vmWith [14, 0, 0] []) 0 0
      (by decide) rfl rfl rfl).2 rfl
  · exact (claim_C9_jump_target_offsets.2 (vmWith [13, 0, 3, 23] [.Boolean false]) 0 3
      [] (.Boolean false) (by decide) rfl rfl rfl rfl rfl rfl).1 (by decide)
  · exact (claim_C9_jump_target_offsets.2 (vmWith [13, 0, 0, 23] [.Boolean false]) 0 0
      [] (.Boolean false) (by decide) rfl rfl rfl rfl rfl rfl).2 rfl

end Wacir
